import Mathlib

/-!
Verification of the hospital relationship store of
matt7salomon/revenue_cycle_management_healthcare.

The notebook crm-neo4j-graph-database.ipynb issues parameterized Cypher
statements (MERGE / MATCH / SET) against a Neo4j database.  We embed the
graph state reached by those statements as an explicit state type: a list
of labelled nodes carrying property maps, a list of typed directed edges,
and a fresh-identity counter.  Each notebook function is translated into a
Lean function on that state, mirroring the Cypher statement it runs:

* create_patient / create_doctor / create_appointment / create_treatment /
  create_medication : MERGE a node by label and unique-id property, then
  SET its remaining properties (mergeNodeSet);
* link_patient_appointment / link_appointment_doctor /
  link_treatment_medication / link_patient_treatment : MATCH both endpoint
  nodes, MERGE the edge for every matched pair (linkMerge);
* set_appointment_reminder : MATCH a node, SET one property (matchNodeSet);
* get_patient_appointments / get_doctor_patients / get_doctor_workload :
  read-only traversals returning result rows.

Match enumeration follows node/edge insertion order, the order in which the
single-session sequential flow of the notebook inserts them.
-/

set_option autoImplicit false

namespace HospitalCRM

/-- A property value stored on a graph node: string, integer or boolean. -/
inductive PropValue where
  | str (s : String)
  | int (n : Int)
  | bool (b : Bool)
  deriving DecidableEq, Repr

/-- A graph node: internal identity, label, and property map. -/
structure Node where
  nodeId : Nat
  label : String
  props : List (String × PropValue)
  deriving DecidableEq, Repr

/-- A directed typed edge between two nodes, referenced by internal identity. -/
structure Edge where
  relType : String
  src : Nat
  dst : Nat
  deriving DecidableEq, Repr

/-- The state of the graph database. -/
structure Graph where
  nodes : List Node
  edges : List Edge
  nextId : Nat
  deriving DecidableEq, Repr

/-- Property lookup: the value bound to the first occurrence of a key. -/
def getProp : List (String × PropValue) → String → Option PropValue
  | [], _ => none
  | (k, w) :: ps, key => if k = key then some w else getProp ps key

/-- Cypher SET of one property: overwrite in place if present, else append. -/
def setProp : List (String × PropValue) → String → PropValue → List (String × PropValue)
  | [], key, v => [(key, v)]
  | (k, w) :: ps, key, v => if k = key then (k, v) :: ps else (k, w) :: setProp ps key v

/-- Cypher SET of several properties, applied left to right. -/
def setProps (ps : List (String × PropValue)) (sets : List (String × PropValue)) :
    List (String × PropValue) :=
  sets.foldl (fun acc kv => setProp acc kv.1 kv.2) ps

/-- Does the node match the pattern (n:label \x7bkey: v\x7d)? -/
def nodeMatches (n : Node) (label key : String) (v : PropValue) : Bool :=
  n.label == label && getProp n.props key == some v

/-- The SET clause applied pointwise: nodes matched by the pattern get the
given properties set, all other nodes are untouched. -/
def updNode (label key : String) (v : PropValue) (sets : List (String × PropValue))
    (n : Node) : Node :=
  if nodeMatches n label key v then { n with props := setProps n.props sets } else n

/-- The node MERGE creates when the pattern (n:label \x7bkey: v\x7d) matches
nothing: a fresh identity, the pattern's label and property, then SET. -/
def newNode (g : Graph) (label key : String) (v : PropValue)
    (sets : List (String × PropValue)) : Node :=
  { nodeId := g.nextId, label := label, props := setProps [(key, v)] sets }

/-- MERGE (n:label \x7bkey: v\x7d) SET n.k1 = v1, ... — the shape shared by all
five create functions of the notebook.  If some node matches the pattern,
SET applies to every match; otherwise a fresh node with the pattern's
property is created and SET applies to it. -/
def mergeNodeSet (g : Graph) (label key : String) (v : PropValue)
    (sets : List (String × PropValue)) : Graph :=
  if g.nodes.any (fun n => nodeMatches n label key v) then
    { g with nodes := g.nodes.map (updNode label key v sets) }
  else
    { g with nodes := g.nodes ++ [newNode g label key v sets], nextId := g.nextId + 1 }

/-- MATCH (n:label \x7bkey: v\x7d) SET ... — update without creation; a no-op
when nothing matches. -/
def matchNodeSet (g : Graph) (label key : String) (v : PropValue)
    (sets : List (String × PropValue)) : Graph :=
  { g with nodes := g.nodes.map (updNode label key v sets) }

/-- MERGE of a relationship between two already-identified nodes: add the
edge unless it is already present. -/
def mergeEdge (g : Graph) (rel : String) (src dst : Nat) : Graph :=
  if ({ relType := rel, src := src, dst := dst } : Edge) ∈ g.edges then g
  else { g with edges := g.edges ++ [{ relType := rel, src := src, dst := dst }] }

/-- MATCH (a:labelA \x7bkeyA: vA\x7d), (b:labelB \x7bkeyB: vB\x7d)
MERGE (a)-[:rel]->(b) — the shape shared by all four link functions of the
notebook.  The MATCH produces the cartesian product of the two match sets;
the edge is merged for every pair.  If either side matches nothing there is
no row and the statement does nothing. -/
def linkMerge (g : Graph) (labelA keyA : String) (vA : PropValue)
    (labelB keyB : String) (vB : PropValue) (rel : String) : Graph :=
  let srcs := g.nodes.filter (fun n => nodeMatches n labelA keyA vA)
  let dsts := g.nodes.filter (fun n => nodeMatches n labelB keyB vB)
  srcs.foldl (fun acc na =>
    dsts.foldl (fun acc2 nb => mergeEdge acc2 rel na.nodeId nb.nodeId) acc) g

/-! The notebook's write operations, one per Python function. -/

/-- MERGE (p:Patient \x7bpatient_id\x7d) SET p.name, p.age, p.contact. -/
def create_patient (g : Graph) (patient_id name : String) (age : Int)
    (contact : String) : Graph :=
  mergeNodeSet g "Patient" "patient_id" (.str patient_id)
    [("name", .str name), ("age", .int age), ("contact", .str contact)]

/-- MERGE (d:Doctor \x7bdoctor_id\x7d) SET d.name, d.specialty. -/
def create_doctor (g : Graph) (doctor_id name specialty : String) : Graph :=
  mergeNodeSet g "Doctor" "doctor_id" (.str doctor_id)
    [("name", .str name), ("specialty", .str specialty)]

/-- MERGE (a:Appointment \x7bappointment_id\x7d) SET a.date, a.time. -/
def create_appointment (g : Graph) (appointment_id date time : String) : Graph :=
  mergeNodeSet g "Appointment" "appointment_id" (.str appointment_id)
    [("date", .str date), ("time", .str time)]

/-- MERGE (t:Treatment \x7btreatment_id\x7d) SET t.description. -/
def create_treatment (g : Graph) (treatment_id description : String) : Graph :=
  mergeNodeSet g "Treatment" "treatment_id" (.str treatment_id)
    [("description", .str description)]

/-- MERGE (m:Medication \x7bmedication_id\x7d) SET m.name, m.dosage. -/
def create_medication (g : Graph) (medication_id name dosage : String) : Graph :=
  mergeNodeSet g "Medication" "medication_id" (.str medication_id)
    [("name", .str name), ("dosage", .str dosage)]

/-- MATCH (p:Patient), (a:Appointment) MERGE (p)-[:HAS_APPOINTMENT]->(a). -/
def link_patient_appointment (g : Graph) (patient_id appointment_id : String) : Graph :=
  linkMerge g "Patient" "patient_id" (.str patient_id)
    "Appointment" "appointment_id" (.str appointment_id) "HAS_APPOINTMENT"

/-- MATCH (a:Appointment), (d:Doctor) MERGE (a)-[:WITH_DOCTOR]->(d). -/
def link_appointment_doctor (g : Graph) (appointment_id doctor_id : String) : Graph :=
  linkMerge g "Appointment" "appointment_id" (.str appointment_id)
    "Doctor" "doctor_id" (.str doctor_id) "WITH_DOCTOR"

/-- MATCH (t:Treatment), (m:Medication) MERGE (t)-[:INCLUDES_MEDICATION]->(m). -/
def link_treatment_medication (g : Graph) (treatment_id medication_id : String) : Graph :=
  linkMerge g "Treatment" "treatment_id" (.str treatment_id)
    "Medication" "medication_id" (.str medication_id) "INCLUDES_MEDICATION"

/-- MATCH (p:Patient), (t:Treatment) MERGE (p)-[:UNDERGOES]->(t). -/
def link_patient_treatment (g : Graph) (patient_id treatment_id : String) : Graph :=
  linkMerge g "Patient" "patient_id" (.str patient_id)
    "Treatment" "treatment_id" (.str treatment_id) "UNDERGOES"

/-- MATCH (a:Appointment \x7bappointment_id\x7d) SET a.reminder_sent. -/
def set_appointment_reminder (g : Graph) (appointment_id : String)
    (reminder_sent : Bool) : Graph :=
  matchNodeSet g "Appointment" "appointment_id" (.str appointment_id)
    [("reminder_sent", .bool reminder_sent)]

/-! The notebook's read queries. -/

/-- Resolve an internal node identity to its node. -/
def lookupNode (g : Graph) (i : Nat) : Option Node :=
  g.nodes.find? (fun n => n.nodeId == i)

/-- Nodes reached from node i along an outgoing edge of the given type,
in edge insertion order. -/
def edgesFrom (g : Graph) (rel : String) (i : Nat) : List Node :=
  (g.edges.filter (fun e => e.relType == rel && e.src == i)).filterMap
    (fun e => lookupNode g e.dst)

/-- Nodes reaching node i along an incoming edge of the given type,
in edge insertion order. -/
def edgesTo (g : Graph) (rel : String) (i : Nat) : List Node :=
  (g.edges.filter (fun e => e.relType == rel && e.dst == i)).filterMap
    (fun e => lookupNode g e.src)

/-- A result row of get_patient_appointments. -/
structure AppointmentRow where
  appointment_id : Option PropValue
  date : Option PropValue
  time : Option PropValue
  doctor : Option PropValue
  deriving DecidableEq, Repr

/-- MATCH (p:Patient \x7bpatient_id\x7d)-[:HAS_APPOINTMENT]->(a)-[:WITH_DOCTOR]->(d)
RETURN a.appointment_id, a.date, a.time, d.name AS doctor. -/
def get_patient_appointments (g : Graph) (patient_id : String) : List AppointmentRow :=
  (g.nodes.filter (fun p => nodeMatches p "Patient" "patient_id" (.str patient_id))).flatMap
    (fun p => (edgesFrom g "HAS_APPOINTMENT" p.nodeId).flatMap
      (fun a => (edgesFrom g "WITH_DOCTOR" a.nodeId).map
        (fun d => { appointment_id := getProp a.props "appointment_id",
                    date := getProp a.props "date",
                    time := getProp a.props "time",
                    doctor := getProp d.props "name" })))

/-- A result row of get_doctor_patients. -/
structure PatientRow where
  patient_id : Option PropValue
  name : Option PropValue
  deriving DecidableEq, Repr

/-- MATCH (d:Doctor \x7bdoctor_id\x7d)<-[:WITH_DOCTOR]-(a)<-[:HAS_APPOINTMENT]-(p)
RETURN p.patient_id, p.name. -/
def get_doctor_patients (g : Graph) (doctor_id : String) : List PatientRow :=
  (g.nodes.filter (fun d => nodeMatches d "Doctor" "doctor_id" (.str doctor_id))).flatMap
    (fun d => (edgesTo g "WITH_DOCTOR" d.nodeId).flatMap
      (fun a => (edgesTo g "HAS_APPOINTMENT" a.nodeId).map
        (fun p => { patient_id := getProp p.props "patient_id",
                    name := getProp p.props "name" })))

/-- A result row of get_doctor_workload. -/
structure WorkloadRow where
  doctor : Option PropValue
  appointments : Nat
  deriving DecidableEq, Repr

/-- The ungrouped rows of MATCH (d:Doctor)<-[:WITH_DOCTOR]-(a): one doctor
name per matched (doctor, incoming WITH_DOCTOR edge) pair. -/
def workloadRows (g : Graph) : List (Option PropValue) :=
  (g.nodes.filter (fun d => d.label == "Doctor")).flatMap
    (fun d => (edgesTo g "WITH_DOCTOR" d.nodeId).map (fun _ => getProp d.props "name"))

/-- Grouping keys in first-occurrence order. -/
def groupKeys : List (Option PropValue) → List (Option PropValue)
  | [] => []
  | k :: ks => k :: (groupKeys ks).filter (fun x => !(x == k))

/-- Insert a row into a list sorted by appointment count descending. -/
def insertByCountDesc (r : WorkloadRow) : List WorkloadRow → List WorkloadRow
  | [] => [r]
  | s :: ss => if s.appointments < r.appointments then r :: s :: ss
               else s :: insertByCountDesc r ss

/-- ORDER BY appointments DESC. -/
def sortByCountDesc : List WorkloadRow → List WorkloadRow
  | [] => []
  | r :: rs => insertByCountDesc r (sortByCountDesc rs)

/-- MATCH (d:Doctor)<-[:WITH_DOCTOR]-(a)
RETURN d.name AS doctor, COUNT(a) AS appointments ORDER BY appointments DESC.
Cypher groups by the non-aggregated return expression d.name. -/
def get_doctor_workload (g : Graph) : List WorkloadRow :=
  sortByCountDesc ((groupKeys (workloadRows g)).map
    (fun k => { doctor := k, appointments := (workloadRows g).count k }))

/-! The executed flow of the notebook, replayed on the empty database. -/

/-- The empty graph the session starts from. -/
def emptyGraph : Graph := { nodes := [], edges := [], nextId := 0 }

/-- The population cell: patients, doctors, appointments, and their links. -/
def populatedCore : Graph :=
  let g := create_patient emptyGraph "P001" "Alice Smith" 30 "555-1234"
  let g := create_patient g "P002" "Bob Johnson" 45 "555-5678"
  let g := create_doctor g "D001" "Dr. Emily Brown" "Cardiology"
  let g := create_doctor g "D002" "Dr. John Doe" "Neurology"
  let g := create_appointment g "A001" "2023-10-15" "10:00"
  let g := create_appointment g "A002" "2023-10-16" "14:00"
  let g := link_patient_appointment g "P001" "A001"
  let g := link_patient_appointment g "P002" "A002"
  let g := link_appointment_doctor g "A001" "D001"
  let g := link_appointment_doctor g "A002" "D002"
  g

/-- The treatment/medication population cell. -/
def populatedFull : Graph :=
  let g := create_treatment populatedCore "T001" "Heart Disease Treatment"
  let g := create_medication g "M001" "Aspirin" "100mg daily"
  let g := create_medication g "M002" "Beta Blockers" "50mg daily"
  let g := link_treatment_medication g "T001" "M001"
  let g := link_treatment_medication g "T001" "M002"
  let g := link_patient_treatment g "P001" "T001"
  g

/-- The reminder cell: set_appointment_reminder on A001 with False. -/
def afterReminder : Graph :=
  set_appointment_reminder populatedFull "A001" false

/-- Number of nodes matching a MERGE pattern. -/
def countMatching (g : Graph) (label key : String) (v : PropValue) : Nat :=
  g.nodes.countP (fun n => nodeMatches n label key v)

/-- The write operations of the executed flow, in notebook order: the two
population cells followed by the reminder update. -/
def flowOps : List (Graph → Graph) :=
  [fun g => create_patient g "P001" "Alice Smith" 30 "555-1234",
   fun g => create_patient g "P002" "Bob Johnson" 45 "555-5678",
   fun g => create_doctor g "D001" "Dr. Emily Brown" "Cardiology",
   fun g => create_doctor g "D002" "Dr. John Doe" "Neurology",
   fun g => create_appointment g "A001" "2023-10-15" "10:00",
   fun g => create_appointment g "A002" "2023-10-16" "14:00",
   fun g => link_patient_appointment g "P001" "A001",
   fun g => link_patient_appointment g "P002" "A002",
   fun g => link_appointment_doctor g "A001" "D001",
   fun g => link_appointment_doctor g "A002" "D002",
   fun g => create_treatment g "T001" "Heart Disease Treatment",
   fun g => create_medication g "M001" "Aspirin" "100mg daily",
   fun g => create_medication g "M002" "Beta Blockers" "50mg daily",
   fun g => link_treatment_medication g "T001" "M001",
   fun g => link_treatment_medication g "T001" "M002",
   fun g => link_patient_treatment g "P001" "T001",
   fun g => set_appointment_reminder g "A001" false]

/-- Every intermediate state of the executed flow, starting from the empty
graph. -/
def flowStates : List Graph := flowOps.scanl (fun g f => f g) emptyGraph

/-- The core population extended by an appointment A003 of P001 that has no
WITH_DOCTOR edge. -/
def doctorlessGraph : Graph :=
  link_patient_appointment (create_appointment populatedCore "A003" "2023-10-17" "09:00")
    "P001" "A003"

/-- The P001 node as populatedCore holds it (used to instantiate theorems). -/
def p001Node : Node :=
  { nodeId := 0, label := "Patient",
    props := [("patient_id", .str "P001"), ("name", .str "Alice Smith"),
              ("age", .int 30), ("contact", .str "555-1234")] }

/-- The A001 node as populatedCore holds it (used to instantiate theorems). -/
def a001Node : Node :=
  { nodeId := 4, label := "Appointment",
    props := [("appointment_id", .str "A001"), ("date", .str "2023-10-15"),
              ("time", .str "10:00")] }

/-- The A001 node after the reminder update (used to instantiate theorems). -/
def a001ReminderNode : Node :=
  { nodeId := 4, label := "Appointment",
    props := [("appointment_id", .str "A001"), ("date", .str "2023-10-15"),
              ("time", .str "10:00"), ("reminder_sent", .bool false)] }

/-- The contract of the link functions: nodes and the fresh-identity counter
are never touched, a missing endpoint makes the call a complete no-op, and
when both endpoints are matched the edge is present afterwards. -/
def linkOk (labelA keyA labelB keyB rel : String)
    (f : Graph → String → String → Graph) : Prop :=
  ∀ (g : Graph) (i j : String),
    (f g i j).nodes = g.nodes ∧
    (f g i j).nextId = g.nextId ∧
    (((∀ n ∈ g.nodes, ¬ nodeMatches n labelA keyA (.str i) = true) ∨
      (∀ n ∈ g.nodes, ¬ nodeMatches n labelB keyB (.str j) = true)) → f g i j = g) ∧
    (∀ na ∈ g.nodes, ∀ nb ∈ g.nodes,
      nodeMatches na labelA keyA (.str i) = true →
      nodeMatches nb labelB keyB (.str j) = true →
      ({ relType := rel, src := na.nodeId, dst := nb.nodeId } : Edge) ∈ (f g i j).edges)

/-- A row of the hospital-spending table of the metrics flow. -/
structure HospitalRecord where
  Hospital_ID : Nat
  State : String
  Cost_Per_Patient : Int
  Payment_Per_Patient : Int
  deriving DecidableEq, Repr

/-- Modelled from the spec: the metrics notebook (RCM-Healthcare.ipynb) is
not among the sources; src/README.md documents the derived field as
Revenue_Gap = Payment_Per_Patient - Cost_Per_Patient. -/
def Revenue_Gap (r : HospitalRecord) : Int :=
  r.Payment_Per_Patient - r.Cost_Per_Patient

/-! Lemmas on property maps. -/

theorem setProps_nil (ps : List (String × PropValue)) : setProps ps [] = ps := rfl

theorem setProps_cons (ps : List (String × PropValue)) (k : String) (v : PropValue)
    (t : List (String × PropValue)) :
    setProps ps ((k, v) :: t) = setProps (setProp ps k v) t := rfl

theorem getProp_setProp_self (ps : List (String × PropValue)) (k : String) (v : PropValue) :
    getProp (setProp ps k v) k = some v := by
  induction ps with
  | nil => simp [setProp, getProp]
  | cons p t ih =>
    obtain ⟨k0, w⟩ := p
    by_cases h : k0 = k
    · simp [setProp, h, getProp]
    · simp [setProp, h, getProp, ih]

theorem getProp_setProp_ne (ps : List (String × PropValue)) (k k' : String) (v : PropValue)
    (h : k' ≠ k) : getProp (setProp ps k v) k' = getProp ps k' := by
  induction ps with
  | nil => simp [setProp, getProp, Ne.symm h]
  | cons p t ih =>
    obtain ⟨k0, w⟩ := p
    by_cases hk : k0 = k
    · subst hk
      simp [setProp, getProp, Ne.symm h]
    · simp [setProp, hk, getProp, ih]

theorem getProp_setProps_not_mem (sets : List (String × PropValue))
    (ps : List (String × PropValue)) (k : String) (h : k ∉ sets.map Prod.fst) :
    getProp (setProps ps sets) k = getProp ps k := by
  induction sets generalizing ps with
  | nil => rfl
  | cons s t ih =>
    obtain ⟨k0, v0⟩ := s
    simp only [List.map_cons, List.mem_cons, not_or] at h
    rw [setProps_cons, ih _ h.2, getProp_setProp_ne _ _ _ _ h.1]

theorem setProp_eq_of_getProp (ps : List (String × PropValue)) (k : String) (v : PropValue)
    (h : getProp ps k = some v) : setProp ps k v = ps := by
  induction ps with
  | nil => simp [getProp] at h
  | cons p t ih =>
    obtain ⟨k0, w⟩ := p
    by_cases hk : k0 = k
    · simp only [getProp, hk, if_pos] at h
      simp only [Option.some.injEq] at h
      simp [setProp, hk, h]
    · simp only [getProp, hk, if_false, ite_false] at h
      simp [setProp, hk, ih h]

theorem getProp_setProps_mem (sets : List (String × PropValue))
    (ps : List (String × PropValue)) (k : String) (v : PropValue)
    (hnd : (sets.map Prod.fst).Nodup) (hm : (k, v) ∈ sets) :
    getProp (setProps ps sets) k = some v := by
  induction sets generalizing ps with
  | nil => simp at hm
  | cons s t ih =>
    obtain ⟨k0, v0⟩ := s
    simp only [List.map_cons, List.nodup_cons] at hnd
    rcases List.mem_cons.mp hm with h | h
    · obtain ⟨hk, hv⟩ := Prod.mk.injEq .. ▸ h
      subst hk; subst hv
      rw [setProps_cons, getProp_setProps_not_mem _ _ _ hnd.1, getProp_setProp_self]
    · rw [setProps_cons]
      exact ih _ hnd.2 h

theorem setProps_idem (sets : List (String × PropValue)) (ps : List (String × PropValue))
    (hnd : (sets.map Prod.fst).Nodup) :
    setProps (setProps ps sets) sets = setProps ps sets := by
  induction sets generalizing ps with
  | nil => rfl
  | cons s t ih =>
    obtain ⟨k0, v0⟩ := s
    simp only [List.map_cons, List.nodup_cons] at hnd
    rw [setProps_cons, setProps_cons]
    have hq : getProp (setProps (setProp ps k0 v0) t) k0 = some v0 := by
      rw [getProp_setProps_not_mem _ _ _ hnd.1, getProp_setProp_self]
    rw [setProp_eq_of_getProp _ _ _ hq]
    exact ih _ hnd.2

theorem nodeMatches_setProps (n : Node) (label key : String) (v : PropValue)
    (sets : List (String × PropValue)) (h : key ∉ sets.map Prod.fst) :
    nodeMatches { n with props := setProps n.props sets } label key v
      = nodeMatches n label key v := by
  simp [nodeMatches, getProp_setProps_not_mem _ _ _ h]

/-! Lemmas on mergeNodeSet (the MERGE + SET upsert pattern). -/

theorem nodeMatches_new (g : Graph) (label key : String) (v : PropValue)
    (sets : List (String × PropValue)) (hk : key ∉ sets.map Prod.fst) :
    nodeMatches (newNode g label key v sets) label key v = true := by
  simp [newNode, nodeMatches, getProp_setProps_not_mem _ _ _ hk, getProp]

theorem nodeMatches_updNode (n : Node) (label key : String) (v : PropValue)
    (sets : List (String × PropValue)) (hk : key ∉ sets.map Prod.fst) :
    nodeMatches (updNode label key v sets n) label key v = nodeMatches n label key v := by
  by_cases h : nodeMatches n label key v = true
  · rw [updNode, if_pos h, nodeMatches_setProps n label key v sets hk]
  · rw [updNode, if_neg h]

theorem updNode_of_not_matches (n : Node) (label key : String) (v : PropValue)
    (sets : List (String × PropValue)) (h : ¬ nodeMatches n label key v = true) :
    updNode label key v sets n = n := by
  rw [updNode, if_neg h]

theorem updNode_idem (n : Node) (label key : String) (v : PropValue)
    (sets : List (String × PropValue)) (hk : key ∉ sets.map Prod.fst)
    (hnd : (sets.map Prod.fst).Nodup) :
    updNode label key v sets (updNode label key v sets n) = updNode label key v sets n := by
  by_cases h : nodeMatches n label key v = true
  · have h2 : nodeMatches (updNode label key v sets n) label key v = true := by
      rw [nodeMatches_updNode n label key v sets hk]; exact h
    conv_lhs => rw [updNode, if_pos h2]
    conv_lhs => rw [updNode, if_pos h]
    conv_rhs => rw [updNode, if_pos h]
    simp [setProps_idem sets _ hnd]
  · rw [updNode_of_not_matches n label key v sets h, updNode_of_not_matches n label key v sets h]

theorem mergeNodeSet_idem (g : Graph) (label key : String) (v : PropValue)
    (sets : List (String × PropValue)) (hk : key ∉ sets.map Prod.fst)
    (hnd : (sets.map Prod.fst).Nodup) :
    mergeNodeSet (mergeNodeSet g label key v sets) label key v sets
      = mergeNodeSet g label key v sets := by
  by_cases hany : g.nodes.any (fun n => nodeMatches n label key v) = true
  · have h1 : mergeNodeSet g label key v sets
        = { g with nodes := g.nodes.map (updNode label key v sets) } := by
      rw [mergeNodeSet, if_pos hany]
    have hany2 : (g.nodes.map (updNode label key v sets)).any
        (fun n => nodeMatches n label key v) = true := by
      obtain ⟨x, hx, hpx⟩ := List.any_eq_true.mp hany
      exact List.any_eq_true.mpr ⟨updNode label key v sets x, List.mem_map_of_mem _ hx,
        (nodeMatches_updNode x label key v sets hk).symm ▸ hpx⟩
    rw [h1, mergeNodeSet]
    simp only [hany2, if_pos, List.map_map]
    have : updNode label key v sets ∘ updNode label key v sets = updNode label key v sets :=
      funext (fun n => updNode_idem n label key v sets hk hnd)
    rw [this]
  · have hnone : ∀ n ∈ g.nodes, ¬ nodeMatches n label key v = true := by
      intro n hn hpn
      exact hany (List.any_eq_true.mpr ⟨n, hn, hpn⟩)
    have hpnew : nodeMatches (newNode g label key v sets) label key v = true :=
      nodeMatches_new g label key v sets hk
    have h1 : mergeNodeSet g label key v sets
        = { g with
            nodes := g.nodes ++ [newNode g label key v sets],
            nextId := g.nextId + 1 } := by
      rw [mergeNodeSet, if_neg hany]
    have hany2 : (g.nodes ++ [newNode g label key v sets]).any
        (fun n => nodeMatches n label key v) = true :=
      List.any_eq_true.mpr ⟨_, by simp, hpnew⟩
    rw [h1, mergeNodeSet]
    simp only [hany2, if_pos]
    have hmap : (g.nodes ++ [newNode g label key v sets]).map (updNode label key v sets)
        = g.nodes ++ [newNode g label key v sets] := by
      rw [List.map_append]
      have hleft : g.nodes.map (updNode label key v sets) = g.nodes := by
        conv_rhs => rw [← List.map_id g.nodes]
        exact List.map_congr_left (fun n hn => updNode_of_not_matches n label key v sets
          (hnone n hn))
      have hright : updNode label key v sets (newNode g label key v sets)
          = newNode g label key v sets := by
        rw [updNode, if_pos hpnew, newNode]
        simp [setProps_idem sets _ hnd]
      rw [hleft]
      simp [hright]
    rw [hmap]

theorem countMatching_mergeNodeSet (g : Graph) (label key : String) (v : PropValue)
    (sets : List (String × PropValue)) (hk : key ∉ sets.map Prod.fst) :
    countMatching (mergeNodeSet g label key v sets) label key v
      = if countMatching g label key v = 0 then 1 else countMatching g label key v := by
  by_cases hany : g.nodes.any (fun n => nodeMatches n label key v) = true
  · have hpos : g.nodes.countP (fun n => nodeMatches n label key v) ≠ 0 := by
      obtain ⟨x, hx, hpx⟩ := List.any_eq_true.mp hany
      have : 0 < g.nodes.countP (fun n => nodeMatches n label key v) :=
        List.countP_pos_iff.mpr ⟨x, hx, hpx⟩
      omega
    rw [mergeNodeSet, if_pos hany]
    simp only [countMatching, List.countP_map]
    rw [if_neg hpos]
    apply List.countP_congr
    intro n _
    simp only [Function.comp_apply]
    rw [nodeMatches_updNode n label key v sets hk]
  · have hzero : g.nodes.countP (fun n => nodeMatches n label key v) = 0 := by
      rw [List.countP_eq_zero]
      intro n hn hpn
      exact hany (List.any_eq_true.mpr ⟨n, hn, hpn⟩)
    rw [mergeNodeSet, if_neg hany]
    simp only [countMatching, List.countP_append, hzero]
    simp [List.countP_cons, nodeMatches_new g label key v sets hk]

/-! Lemmas on mergeEdge and linkMerge (the MATCH + MERGE relationship pattern). -/

theorem mergeEdge_nodes (g : Graph) (rel : String) (s d : Nat) :
    (mergeEdge g rel s d).nodes = g.nodes := by
  rw [mergeEdge]; split <;> rfl

theorem mergeEdge_nextId (g : Graph) (rel : String) (s d : Nat) :
    (mergeEdge g rel s d).nextId = g.nextId := by
  rw [mergeEdge]; split <;> rfl

theorem mem_edges_mergeEdge (g : Graph) (rel : String) (s d : Nat) (e : Edge)
    (h : e ∈ g.edges) : e ∈ (mergeEdge g rel s d).edges := by
  rw [mergeEdge]; split
  · exact h
  · simp [h]

theorem self_mem_mergeEdge (g : Graph) (rel : String) (s d : Nat) :
    ({ relType := rel, src := s, dst := d } : Edge) ∈ (mergeEdge g rel s d).edges := by
  rw [mergeEdge]; split
  · assumption
  · simp

theorem innerFold_nodes (bs : List Node) (g : Graph) (rel : String) (i : Nat) :
    (bs.foldl (fun acc nb => mergeEdge acc rel i nb.nodeId) g).nodes = g.nodes := by
  induction bs generalizing g with
  | nil => rfl
  | cons b t ih => rw [List.foldl_cons, ih, mergeEdge_nodes]

theorem innerFold_nextId (bs : List Node) (g : Graph) (rel : String) (i : Nat) :
    (bs.foldl (fun acc nb => mergeEdge acc rel i nb.nodeId) g).nextId = g.nextId := by
  induction bs generalizing g with
  | nil => rfl
  | cons b t ih => rw [List.foldl_cons, ih, mergeEdge_nextId]

theorem innerFold_edges_mono (bs : List Node) (g : Graph) (rel : String) (i : Nat)
    (e : Edge) (h : e ∈ g.edges) :
    e ∈ (bs.foldl (fun acc nb => mergeEdge acc rel i nb.nodeId) g).edges := by
  induction bs generalizing g with
  | nil => exact h
  | cons b t ih => rw [List.foldl_cons]; exact ih _ (mem_edges_mergeEdge _ _ _ _ _ h)

theorem innerFold_mem (bs : List Node) (g : Graph) (rel : String) (i : Nat)
    (nb : Node) (h : nb ∈ bs) :
    ({ relType := rel, src := i, dst := nb.nodeId } : Edge)
      ∈ (bs.foldl (fun acc nb => mergeEdge acc rel i nb.nodeId) g).edges := by
  induction bs generalizing g with
  | nil => simp at h
  | cons b t ih =>
    rw [List.foldl_cons]
    rcases List.mem_cons.mp h with h | h
    · subst h
      exact innerFold_edges_mono _ _ _ _ _ (self_mem_mergeEdge g rel i nb.nodeId)
    · exact ih _ h

theorem outerFold_nodes (srcs bs : List Node) (g : Graph) (rel : String) :
    (srcs.foldl (fun acc na =>
      bs.foldl (fun acc2 nb => mergeEdge acc2 rel na.nodeId nb.nodeId) acc) g).nodes
      = g.nodes := by
  induction srcs generalizing g with
  | nil => rfl
  | cons a t ih => rw [List.foldl_cons, ih, innerFold_nodes]

theorem outerFold_nextId (srcs bs : List Node) (g : Graph) (rel : String) :
    (srcs.foldl (fun acc na =>
      bs.foldl (fun acc2 nb => mergeEdge acc2 rel na.nodeId nb.nodeId) acc) g).nextId
      = g.nextId := by
  induction srcs generalizing g with
  | nil => rfl
  | cons a t ih => rw [List.foldl_cons, ih, innerFold_nextId]

theorem outerFold_edges_mono (srcs bs : List Node) (g : Graph) (rel : String)
    (e : Edge) (h : e ∈ g.edges) :
    e ∈ (srcs.foldl (fun acc na =>
      bs.foldl (fun acc2 nb => mergeEdge acc2 rel na.nodeId nb.nodeId) acc) g).edges := by
  induction srcs generalizing g with
  | nil => exact h
  | cons a t ih => rw [List.foldl_cons]; exact ih _ (innerFold_edges_mono _ _ _ _ _ h)

theorem outerFold_mem (srcs bs : List Node) (g : Graph) (rel : String)
    (na nb : Node) (ha : na ∈ srcs) (hb : nb ∈ bs) :
    ({ relType := rel, src := na.nodeId, dst := nb.nodeId } : Edge)
      ∈ (srcs.foldl (fun acc na =>
          bs.foldl (fun acc2 nb => mergeEdge acc2 rel na.nodeId nb.nodeId) acc) g).edges := by
  induction srcs generalizing g with
  | nil => simp at ha
  | cons a t ih =>
    rw [List.foldl_cons]
    rcases List.mem_cons.mp ha with h | h
    · subst h
      exact outerFold_edges_mono _ _ _ _ _ (innerFold_mem _ _ _ _ _ hb)
    · exact ih _ h

theorem foldl_const {α β : Type} (l : List α) (g : β) :
    l.foldl (fun acc _ => acc) g = g := by
  induction l <;> simp_all

theorem linkMerge_nodes (g : Graph) (labelA keyA : String) (vA : PropValue)
    (labelB keyB : String) (vB : PropValue) (rel : String) :
    (linkMerge g labelA keyA vA labelB keyB vB rel).nodes = g.nodes := by
  rw [linkMerge]; exact outerFold_nodes _ _ _ _

theorem linkMerge_nextId (g : Graph) (labelA keyA : String) (vA : PropValue)
    (labelB keyB : String) (vB : PropValue) (rel : String) :
    (linkMerge g labelA keyA vA labelB keyB vB rel).nextId = g.nextId := by
  rw [linkMerge]; exact outerFold_nextId _ _ _ _

theorem linkMerge_noop (g : Graph) (labelA keyA : String) (vA : PropValue)
    (labelB keyB : String) (vB : PropValue) (rel : String)
    (h : (∀ n ∈ g.nodes, ¬ nodeMatches n labelA keyA vA = true)
       ∨ (∀ n ∈ g.nodes, ¬ nodeMatches n labelB keyB vB = true)) :
    linkMerge g labelA keyA vA labelB keyB vB rel = g := by
  rcases h with h | h
  · have : g.nodes.filter (fun n => nodeMatches n labelA keyA vA) = [] :=
      List.filter_eq_nil_iff.mpr h
    rw [linkMerge]
    simp only [this, List.foldl_nil]
  · have hB : g.nodes.filter (fun n => nodeMatches n labelB keyB vB) = [] :=
      List.filter_eq_nil_iff.mpr h
    rw [linkMerge]
    simp only [hB, List.foldl_nil]
    exact foldl_const _ _

theorem linkMerge_mem (g : Graph) (labelA keyA : String) (vA : PropValue)
    (labelB keyB : String) (vB : PropValue) (rel : String) (na nb : Node)
    (hna : na ∈ g.nodes) (hpa : nodeMatches na labelA keyA vA = true)
    (hnb : nb ∈ g.nodes) (hpb : nodeMatches nb labelB keyB vB = true) :
    ({ relType := rel, src := na.nodeId, dst := nb.nodeId } : Edge)
      ∈ (linkMerge g labelA keyA vA labelB keyB vB rel).edges := by
  rw [linkMerge]
  exact outerFold_mem _ _ _ _ _ _ (List.mem_filter.mpr ⟨hna, hpa⟩)
    (List.mem_filter.mpr ⟨hnb, hpb⟩)

/-! Lemmas on matchNodeSet (the MATCH + SET update pattern). -/

theorem matchNodeSet_noop (g : Graph) (label key : String) (v : PropValue)
    (sets : List (String × PropValue))
    (h : ∀ n ∈ g.nodes, ¬ nodeMatches n label key v = true) :
    matchNodeSet g label key v sets = g := by
  rw [matchNodeSet]
  have hmap : g.nodes.map (updNode label key v sets) = g.nodes := by
    conv_rhs => rw [← List.map_id g.nodes]
    exact List.map_congr_left (fun n hn => updNode_of_not_matches n label key v sets (h n hn))
  rw [hmap]

theorem matchNodeSet_edges (g : Graph) (label key : String) (v : PropValue)
    (sets : List (String × PropValue)) :
    (matchNodeSet g label key v sets).edges = g.edges := rfl

theorem matchNodeSet_nextId (g : Graph) (label key : String) (v : PropValue)
    (sets : List (String × PropValue)) :
    (matchNodeSet g label key v sets).nextId = g.nextId := rfl

theorem matchNodeSet_getProp (g : Graph) (label key : String) (v : PropValue)
    (sets : List (String × PropValue))
    (hnd : (sets.map Prod.fst).Nodup) (k : String) (w : PropValue) (hkw : (k, w) ∈ sets)
    (n' : Node) (h : n' ∈ (matchNodeSet g label key v sets).nodes)
    (hm : nodeMatches n' label key v = true) :
    getProp n'.props k = some w := by
  rw [matchNodeSet] at h
  obtain ⟨n, hn, rfl⟩ := List.mem_map.mp h
  by_cases hp : nodeMatches n label key v = true
  · simp only [updNode, hp, if_pos]
    exact getProp_setProps_mem sets _ k w hnd hkw
  · rw [updNode_of_not_matches n label key v sets hp] at hm
    exact absurd hm hp

/-! Membership characterizations of the traversal queries. -/

theorem mem_edgesFrom (g : Graph) (rel : String) (i : Nat) (a : Node) :
    a ∈ edgesFrom g rel i
      ↔ ∃ e ∈ g.edges, e.relType = rel ∧ e.src = i ∧ lookupNode g e.dst = some a := by
  simp only [edgesFrom, List.mem_filterMap, List.mem_filter, Bool.and_eq_true, beq_iff_eq]
  constructor
  · rintro ⟨e, ⟨he, hrel, hsrc⟩, hl⟩
    exact ⟨e, he, hrel, hsrc, hl⟩
  · rintro ⟨e, he, hrel, hsrc, hl⟩
    exact ⟨e, ⟨he, hrel, hsrc⟩, hl⟩

theorem mem_edgesTo (g : Graph) (rel : String) (i : Nat) (a : Node) :
    a ∈ edgesTo g rel i
      ↔ ∃ e ∈ g.edges, e.relType = rel ∧ e.dst = i ∧ lookupNode g e.src = some a := by
  simp only [edgesTo, List.mem_filterMap, List.mem_filter, Bool.and_eq_true, beq_iff_eq]
  constructor
  · rintro ⟨e, ⟨he, hrel, hdst⟩, hl⟩
    exact ⟨e, he, hrel, hdst, hl⟩
  · rintro ⟨e, he, hrel, hdst, hl⟩
    exact ⟨e, ⟨he, hrel, hdst⟩, hl⟩

theorem mem_get_patient_appointments (g : Graph) (pid : String) (r : AppointmentRow) :
    r ∈ get_patient_appointments g pid
      ↔ ∃ p ∈ g.nodes, nodeMatches p "Patient" "patient_id" (.str pid) = true ∧
        ∃ a ∈ edgesFrom g "HAS_APPOINTMENT" p.nodeId,
        ∃ d ∈ edgesFrom g "WITH_DOCTOR" a.nodeId,
          r = { appointment_id := getProp a.props "appointment_id",
                date := getProp a.props "date",
                time := getProp a.props "time",
                doctor := getProp d.props "name" } := by
  simp only [get_patient_appointments, List.mem_flatMap, List.mem_map, List.mem_filter]
  constructor
  · rintro ⟨p, ⟨hp, hmp⟩, a, ha, d, hd, rfl⟩
    exact ⟨p, hp, hmp, a, ha, d, hd, rfl⟩
  · rintro ⟨p, hp, hmp, a, ha, d, hd, rfl⟩
    exact ⟨p, ⟨hp, hmp⟩, a, ha, d, hd, rfl⟩

theorem mem_get_doctor_patients (g : Graph) (did : String) (r : PatientRow) :
    r ∈ get_doctor_patients g did
      ↔ ∃ d ∈ g.nodes, nodeMatches d "Doctor" "doctor_id" (.str did) = true ∧
        ∃ a ∈ edgesTo g "WITH_DOCTOR" d.nodeId,
        ∃ p ∈ edgesTo g "HAS_APPOINTMENT" a.nodeId,
          r = { patient_id := getProp p.props "patient_id",
                name := getProp p.props "name" } := by
  simp only [get_doctor_patients, List.mem_flatMap, List.mem_map, List.mem_filter]
  constructor
  · rintro ⟨d, ⟨hd, hmd⟩, a, ha, p, hp, rfl⟩
    exact ⟨d, hd, hmd, a, ha, p, hp, rfl⟩
  · rintro ⟨d, hd, hmd, a, ha, p, hp, rfl⟩
    exact ⟨d, ⟨hd, hmd⟩, a, ha, p, hp, rfl⟩

theorem get_patient_appointments_of_no_patient (g : Graph) (pid : String)
    (h : ∀ n ∈ g.nodes, ¬ nodeMatches n "Patient" "patient_id" (.str pid) = true) :
    get_patient_appointments g pid = [] := by
  rw [get_patient_appointments, List.filter_eq_nil_iff.mpr h]
  rfl

theorem get_patient_appointments_of_no_appointments (g : Graph) (pid : String)
    (h : ∀ n ∈ g.nodes, nodeMatches n "Patient" "patient_id" (.str pid) = true →
      edgesFrom g "HAS_APPOINTMENT" n.nodeId = []) :
    get_patient_appointments g pid = [] := by
  rw [get_patient_appointments]
  apply List.flatMap_eq_nil_iff.mpr
  intro p hp
  obtain ⟨hpn, hpm⟩ := List.mem_filter.mp hp
  rw [h p hpn hpm]
  rfl

/-! Lemmas on grouping and sorting for get_doctor_workload. -/

theorem mem_insertByCountDesc (r x : WorkloadRow) (l : List WorkloadRow) :
    x ∈ insertByCountDesc r l ↔ x = r ∨ x ∈ l := by
  induction l with
  | nil => simp [insertByCountDesc]
  | cons s t ih =>
    rw [insertByCountDesc]
    split
    · simp [List.mem_cons]
    · simp only [List.mem_cons, ih]
      tauto

theorem mem_sortByCountDesc (x : WorkloadRow) (l : List WorkloadRow) :
    x ∈ sortByCountDesc l ↔ x ∈ l := by
  induction l with
  | nil => simp [sortByCountDesc]
  | cons r t ih =>
    rw [sortByCountDesc, mem_insertByCountDesc]
    simp [ih]

theorem sorted_insertByCountDesc (r : WorkloadRow) (l : List WorkloadRow)
    (h : List.Pairwise (fun x y => y.appointments ≤ x.appointments) l) :
    List.Pairwise (fun x y => y.appointments ≤ x.appointments) (insertByCountDesc r l) := by
  induction l with
  | nil => simp [insertByCountDesc]
  | cons s t ih =>
    obtain ⟨hs, ht⟩ := List.pairwise_cons.mp h
    rw [insertByCountDesc]
    split
    · rename_i hlt
      apply List.pairwise_cons.mpr
      refine ⟨?_, h⟩
      intro y hy
      rcases List.mem_cons.mp hy with rfl | hy
      · omega
      · exact le_trans (hs y hy) (le_of_lt hlt)
    · rename_i hnlt
      apply List.pairwise_cons.mpr
      refine ⟨?_, ih ht⟩
      intro y hy
      rcases (mem_insertByCountDesc r y t).mp hy with rfl | hy
      · omega
      · exact hs y hy

theorem sorted_sortByCountDesc (l : List WorkloadRow) :
    List.Pairwise (fun x y => y.appointments ≤ x.appointments) (sortByCountDesc l) := by
  induction l with
  | nil => simp [sortByCountDesc]
  | cons r t ih => exact sorted_insertByCountDesc r _ ih

theorem mem_groupKeys (x : Option PropValue) (l : List (Option PropValue)) :
    x ∈ groupKeys l ↔ x ∈ l := by
  induction l with
  | nil => simp [groupKeys]
  | cons k t ih =>
    rw [groupKeys]
    simp only [List.mem_cons, List.mem_filter]
    constructor
    · rintro (rfl | ⟨hx, _⟩)
      · exact Or.inl rfl
      · exact Or.inr (ih.mp hx)
    · rintro (rfl | hx)
      · exact Or.inl rfl
      · by_cases hxk : x = k
        · exact Or.inl hxk
        · refine Or.inr ⟨ih.mpr hx, ?_⟩
          simp [hxk]

theorem mem_get_doctor_workload (g : Graph) (r : WorkloadRow) :
    r ∈ get_doctor_workload g
      ↔ r.doctor ∈ workloadRows g
        ∧ r.appointments = (workloadRows g).count r.doctor := by
  rw [get_doctor_workload, mem_sortByCountDesc]
  simp only [List.mem_map]
  constructor
  · rintro ⟨k, hk, rfl⟩
    exact ⟨(mem_groupKeys k _).mp hk, rfl⟩
  · rintro ⟨hd, hc⟩
    refine ⟨r.doctor, (mem_groupKeys _ _).mpr hd, ?_⟩
    cases r
    simp only at hc
    simp [hc]

theorem mem_workloadRows (g : Graph) (nm : Option PropValue) :
    nm ∈ workloadRows g
      ↔ ∃ d ∈ g.nodes, d.label = "Doctor" ∧ getProp d.props "name" = nm ∧
          edgesTo g "WITH_DOCTOR" d.nodeId ≠ [] := by
  simp only [workloadRows, List.mem_flatMap, List.mem_filter, List.mem_map, beq_iff_eq]
  constructor
  · rintro ⟨d, ⟨hd, hlab⟩, a, ha, rfl⟩
    exact ⟨d, hd, hlab, rfl, List.ne_nil_of_mem ha⟩
  · rintro ⟨d, hd, hlab, rfl, hne⟩
    obtain ⟨a, ha⟩ := List.exists_mem_of_ne_nil _ hne
    exact ⟨d, ⟨hd, hlab⟩, a, ha, rfl⟩

theorem countMatching_twice (g : Graph) (label key : String) (v : PropValue)
    (sets : List (String × PropValue)) (hk : key ∉ sets.map Prod.fst)
    (hle : countMatching g label key v ≤ 1) :
    countMatching (mergeNodeSet (mergeNodeSet g label key v sets) label key v sets)
      label key v = 1 := by
  rw [countMatching_mergeNodeSet _ _ _ _ _ hk, countMatching_mergeNodeSet _ _ _ _ _ hk]
  split_ifs <;> omega

theorem linkOk_linkMerge (labelA keyA labelB keyB rel : String) :
    linkOk labelA keyA labelB keyB rel
      (fun g i j => linkMerge g labelA keyA (.str i) labelB keyB (.str j) rel) := by
  intro g i j
  refine ⟨linkMerge_nodes _ _ _ _ _ _ _ _, linkMerge_nextId _ _ _ _ _ _ _ _, ?_, ?_⟩
  · intro h
    exact linkMerge_noop _ _ _ _ _ _ _ _ h
  · intro na hna nb hnb hpa hpb
    exact linkMerge_mem _ _ _ _ _ _ _ _ na nb hna hpa hnb hpb

/-! The claims. -/

/-- C1: get_patient_appointments returns the rows reachable from the given
patient via a HAS_APPOINTMENT edge followed by a WITH_DOCTOR edge (as the
membership characterization states), returns [] when the patient does not
exist or has no appointments, and on the populated sample returns exactly
the (A001, 2023-10-15, 10:00, Dr. Emily Brown) row for P001. -/
theorem appointmentsForPatient_correct (g : Graph) (pid : String) :
    (get_patient_appointments populatedCore "P001"
      = [{ appointment_id := some (.str "A001"), date := some (.str "2023-10-15"),
           time := some (.str "10:00"), doctor := some (.str "Dr. Emily Brown") }]) ∧
    ((∀ n ∈ g.nodes, ¬ nodeMatches n "Patient" "patient_id" (.str pid) = true) →
      get_patient_appointments g pid = []) ∧
    ((∀ n ∈ g.nodes, nodeMatches n "Patient" "patient_id" (.str pid) = true →
        edgesFrom g "HAS_APPOINTMENT" n.nodeId = []) →
      get_patient_appointments g pid = []) ∧
    (∀ r : AppointmentRow,
      r ∈ get_patient_appointments g pid ↔
        ∃ p ∈ g.nodes, nodeMatches p "Patient" "patient_id" (.str pid) = true ∧
        ∃ e1 ∈ g.edges, e1.relType = "HAS_APPOINTMENT" ∧ e1.src = p.nodeId ∧
        ∃ a, lookupNode g e1.dst = some a ∧
        ∃ e2 ∈ g.edges, e2.relType = "WITH_DOCTOR" ∧ e2.src = a.nodeId ∧
        ∃ d, lookupNode g e2.dst = some d ∧
          r = { appointment_id := getProp a.props "appointment_id",
                date := getProp a.props "date",
                time := getProp a.props "time",
                doctor := getProp d.props "name" }) := by
  refine ⟨by decide, get_patient_appointments_of_no_patient g pid,
    get_patient_appointments_of_no_appointments g pid, ?_⟩
  intro r
  rw [mem_get_patient_appointments]
  constructor
  · rintro ⟨p, hp, hmp, a, ha, d, hd, rfl⟩
    obtain ⟨e1, he1, hrel1, hsrc1, hl1⟩ := (mem_edgesFrom g _ _ a).mp ha
    obtain ⟨e2, he2, hrel2, hsrc2, hl2⟩ := (mem_edgesFrom g _ _ d).mp hd
    exact ⟨p, hp, hmp, e1, he1, hrel1, hsrc1, a, hl1, e2, he2, hrel2, hsrc2, d, hl2, rfl⟩
  · rintro ⟨p, hp, hmp, e1, he1, hrel1, hsrc1, a, hl1, e2, he2, hrel2, hsrc2, d, hl2, rfl⟩
    exact ⟨p, hp, hmp, a, (mem_edgesFrom g _ _ a).mpr ⟨e1, he1, hrel1, hsrc1, hl1⟩,
      d, (mem_edgesFrom g _ _ d).mpr ⟨e2, he2, hrel2, hsrc2, hl2⟩, rfl⟩

/-- Witness for C1: a patient id absent from the empty graph yields []. -/
theorem appointmentsForPatient_correct_witness :
    (∀ n ∈ emptyGraph.nodes, ¬ nodeMatches n "Patient" "patient_id" (.str "P404") = true)
      ∧ get_patient_appointments emptyGraph "P404" = [] :=
  ⟨by decide, (appointmentsForPatient_correct emptyGraph "P404").2.1 (by decide)⟩

/-- C2: each of the four link functions creates the edge when both endpoints
exist, and is a complete no-op — no error, no edge, no entities created,
state unchanged — when either endpoint is missing. -/
theorem linkEntities_correct :
    linkOk "Patient" "patient_id" "Appointment" "appointment_id" "HAS_APPOINTMENT"
      link_patient_appointment ∧
    linkOk "Appointment" "appointment_id" "Doctor" "doctor_id" "WITH_DOCTOR"
      link_appointment_doctor ∧
    linkOk "Treatment" "treatment_id" "Medication" "medication_id" "INCLUDES_MEDICATION"
      link_treatment_medication ∧
    linkOk "Patient" "patient_id" "Treatment" "treatment_id" "UNDERGOES"
      link_patient_treatment :=
  ⟨linkOk_linkMerge _ _ _ _ _, linkOk_linkMerge _ _ _ _ _,
   linkOk_linkMerge _ _ _ _ _, linkOk_linkMerge _ _ _ _ _⟩

/-- Witness for C2: linking with a missing endpoint on the empty graph is the
identity, and linking P001 to A001 on the populated graph yields the edge. -/
theorem linkEntities_correct_witness :
    link_patient_appointment emptyGraph "P404" "A404" = emptyGraph ∧
    ({ relType := "HAS_APPOINTMENT", src := p001Node.nodeId, dst := a001Node.nodeId } : Edge)
      ∈ (link_patient_appointment populatedCore "P001" "A001").edges :=
  ⟨(linkEntities_correct.1 emptyGraph "P404" "A404").2.2.1 (Or.inl (by decide)),
   (linkEntities_correct.1 populatedCore "P001" "A001").2.2.2
     p001Node (by decide) a001Node (by decide) (by decide) (by decide)⟩

/-- C3: every create function is idempotent — a second call with identical
arguments leaves the state exactly as after the first — and two identical
calls leave exactly one node matching that kind and id (provided the graph
did not already hold duplicates for that id). -/
theorem upsertEntity_idempotent (g : Graph) (i s1 s2 : String) (a : Int) :
    (create_patient (create_patient g i s1 a s2) i s1 a s2 = create_patient g i s1 a s2) ∧
    (countMatching g "Patient" "patient_id" (.str i) ≤ 1 →
      countMatching (create_patient (create_patient g i s1 a s2) i s1 a s2)
        "Patient" "patient_id" (.str i) = 1) ∧
    (create_doctor (create_doctor g i s1 s2) i s1 s2 = create_doctor g i s1 s2) ∧
    (countMatching g "Doctor" "doctor_id" (.str i) ≤ 1 →
      countMatching (create_doctor (create_doctor g i s1 s2) i s1 s2)
        "Doctor" "doctor_id" (.str i) = 1) ∧
    (create_appointment (create_appointment g i s1 s2) i s1 s2
      = create_appointment g i s1 s2) ∧
    (countMatching g "Appointment" "appointment_id" (.str i) ≤ 1 →
      countMatching (create_appointment (create_appointment g i s1 s2) i s1 s2)
        "Appointment" "appointment_id" (.str i) = 1) ∧
    (create_treatment (create_treatment g i s1) i s1 = create_treatment g i s1) ∧
    (countMatching g "Treatment" "treatment_id" (.str i) ≤ 1 →
      countMatching (create_treatment (create_treatment g i s1) i s1)
        "Treatment" "treatment_id" (.str i) = 1) ∧
    (create_medication (create_medication g i s1 s2) i s1 s2
      = create_medication g i s1 s2) ∧
    (countMatching g "Medication" "medication_id" (.str i) ≤ 1 →
      countMatching (create_medication (create_medication g i s1 s2) i s1 s2)
        "Medication" "medication_id" (.str i) = 1) := by
  refine ⟨?_, ?_, ?_, ?_, ?_, ?_, ?_, ?_, ?_, ?_⟩
  · exact mergeNodeSet_idem g _ _ _ _ (by simp) (by simp)
  · intro h; exact countMatching_twice g _ _ _ _ (by simp) h
  · exact mergeNodeSet_idem g _ _ _ _ (by simp) (by simp)
  · intro h; exact countMatching_twice g _ _ _ _ (by simp) h
  · exact mergeNodeSet_idem g _ _ _ _ (by simp) (by simp)
  · intro h; exact countMatching_twice g _ _ _ _ (by simp) h
  · exact mergeNodeSet_idem g _ _ _ _ (by simp) (by simp)
  · intro h; exact countMatching_twice g _ _ _ _ (by simp) h
  · exact mergeNodeSet_idem g _ _ _ _ (by simp) (by simp)
  · intro h; exact countMatching_twice g _ _ _ _ (by simp) h

/-- Witness for C3: creating P9 twice on the empty graph leaves exactly one
matching node. -/
theorem upsertEntity_idempotent_witness :
    countMatching emptyGraph "Patient" "patient_id" (.str "P9") ≤ 1 ∧
    countMatching (create_patient (create_patient emptyGraph "P9" "N" 7 "C") "P9" "N" 7 "C")
      "Patient" "patient_id" (.str "P9") = 1 :=
  ⟨by decide, (upsertEntity_idempotent emptyGraph "P9" "N" "C" 7).2.1 (by decide)⟩

/-- C4: get_doctor_workload lists a (name, count) row exactly for the doctor
names carried by doctors with at least one incoming WITH_DOCTOR edge, every
count is at least 1, the list is sorted by count descending, and on the
populated sample both doctors appear with count 1. -/
theorem doctorWorkload_correct (g : Graph) (nm : Option PropValue) :
    (get_doctor_workload populatedCore
      = [{ doctor := some (.str "Dr. John Doe"), appointments := 1 },
         { doctor := some (.str "Dr. Emily Brown"), appointments := 1 }]) ∧
    List.Pairwise (fun x y => y.appointments ≤ x.appointments) (get_doctor_workload g) ∧
    ((∃ c, ({ doctor := nm, appointments := c } : WorkloadRow) ∈ get_doctor_workload g)
      ↔ ∃ d ∈ g.nodes, d.label = "Doctor" ∧ getProp d.props "name" = nm ∧
          edgesTo g "WITH_DOCTOR" d.nodeId ≠ []) ∧
    (∀ r ∈ get_doctor_workload g, 1 ≤ r.appointments) := by
  refine ⟨by decide, sorted_sortByCountDesc _, ?_, ?_⟩
  · constructor
    · rintro ⟨c, hc⟩
      have h := (mem_get_doctor_workload g _).mp hc
      exact (mem_workloadRows g nm).mp h.1
    · intro h
      exact ⟨(workloadRows g).count nm,
        (mem_get_doctor_workload g _).mpr ⟨(mem_workloadRows g nm).mpr h, rfl⟩⟩
  · intro r hr
    obtain ⟨hd, hc⟩ := (mem_get_doctor_workload g r).mp hr
    rw [hc]
    exact List.count_pos_iff.mpr hd

/-- Witness for C4: the Dr. John Doe row of the populated sample has a
count of at least 1. -/
theorem doctorWorkload_correct_witness :
    ({ doctor := some (PropValue.str "Dr. John Doe"), appointments := 1 } : WorkloadRow)
      ∈ get_doctor_workload populatedCore ∧
    1 ≤ ({ doctor := some (PropValue.str "Dr. John Doe"),
           appointments := 1 } : WorkloadRow).appointments :=
  ⟨by decide, (doctorWorkload_correct populatedCore none).2.2.2 _ (by decide)⟩

/-- C5: get_doctor_patients returns the (patient_id, name) rows of exactly
the patients reaching the given doctor through a HAS_APPOINTMENT edge into
an appointment with a WITH_DOCTOR edge to that doctor; on the populated
sample D001 yields exactly the (P001, Alice Smith) row. -/
theorem patientsForDoctor_correct (g : Graph) (did : String) :
    (get_doctor_patients populatedCore "D001"
      = [{ patient_id := some (.str "P001"), name := some (.str "Alice Smith") }]) ∧
    (∀ r : PatientRow,
      r ∈ get_doctor_patients g did ↔
        ∃ d ∈ g.nodes, nodeMatches d "Doctor" "doctor_id" (.str did) = true ∧
        ∃ e2 ∈ g.edges, e2.relType = "WITH_DOCTOR" ∧ e2.dst = d.nodeId ∧
        ∃ a, lookupNode g e2.src = some a ∧
        ∃ e1 ∈ g.edges, e1.relType = "HAS_APPOINTMENT" ∧ e1.dst = a.nodeId ∧
        ∃ p, lookupNode g e1.src = some p ∧
          r = { patient_id := getProp p.props "patient_id",
                name := getProp p.props "name" }) := by
  refine ⟨by decide, ?_⟩
  intro r
  rw [mem_get_doctor_patients]
  constructor
  · rintro ⟨d, hd, hmd, a, ha, p, hp, rfl⟩
    obtain ⟨e2, he2, hrel2, hdst2, hl2⟩ := (mem_edgesTo g _ _ a).mp ha
    obtain ⟨e1, he1, hrel1, hdst1, hl1⟩ := (mem_edgesTo g _ _ p).mp hp
    exact ⟨d, hd, hmd, e2, he2, hrel2, hdst2, a, hl2, e1, he1, hrel1, hdst1, p, hl1, rfl⟩
  · rintro ⟨d, hd, hmd, e2, he2, hrel2, hdst2, a, hl2, e1, he1, hrel1, hdst1, p, hl1, rfl⟩
    exact ⟨d, hd, hmd, a, (mem_edgesTo g _ _ a).mpr ⟨e2, he2, hrel2, hdst2, hl2⟩,
      p, (mem_edgesTo g _ _ p).mpr ⟨e1, he1, hrel1, hdst1, hl1⟩, rfl⟩

/-- Witness for C5: the (P001, Alice Smith) row of the populated sample comes
from a two-edge chain into D001. -/
theorem patientsForDoctor_correct_witness :
    ∃ d ∈ populatedCore.nodes, nodeMatches d "Doctor" "doctor_id" (.str "D001") = true ∧
    ∃ e2 ∈ populatedCore.edges, e2.relType = "WITH_DOCTOR" ∧ e2.dst = d.nodeId ∧
    ∃ a, lookupNode populatedCore e2.src = some a ∧
    ∃ e1 ∈ populatedCore.edges, e1.relType = "HAS_APPOINTMENT" ∧ e1.dst = a.nodeId ∧
    ∃ p, lookupNode populatedCore e1.src = some p ∧
      ({ patient_id := some (.str "P001"), name := some (.str "Alice Smith") } : PatientRow)
        = { patient_id := getProp p.props "patient_id", name := getProp p.props "name" } :=
  ((patientsForDoctor_correct populatedCore "D001").2
    { patient_id := some (.str "P001"), name := some (.str "Alice Smith") }).mp (by decide)

/-- C6: set_appointment_reminder writes the reminder_sent property of every
appointment node carrying the given id, so a subsequent read of that node
returns the new boolean; when no appointment matches, the call leaves the
state unchanged, and it never touches edges or the identity counter. -/
theorem setAppointmentReminder_correct (g : Graph) (aid : String) (b : Bool) :
    ((∀ n ∈ g.nodes, ¬ nodeMatches n "Appointment" "appointment_id" (.str aid) = true) →
      set_appointment_reminder g aid b = g) ∧
    (∀ n' ∈ (set_appointment_reminder g aid b).nodes,
      nodeMatches n' "Appointment" "appointment_id" (.str aid) = true →
      getProp n'.props "reminder_sent" = some (.bool b)) ∧
    (set_appointment_reminder g aid b).edges = g.edges ∧
    (set_appointment_reminder g aid b).nextId = g.nextId := by
  refine ⟨?_, ?_, rfl, rfl⟩
  · intro h
    exact matchNodeSet_noop g _ _ _ _ h
  · intro n' hn' hm
    exact matchNodeSet_getProp g _ _ _ _ (by simp) _ _ (by simp) n' hn' hm

/-- Witness for C6: the call on a missing id is the identity, and after the
flow's update the A001 node reads reminder_sent = false. -/
theorem setAppointmentReminder_correct_witness :
    set_appointment_reminder emptyGraph "A404" false = emptyGraph ∧
    getProp a001ReminderNode.props "reminder_sent" = some (.bool false) :=
  ⟨(setAppointmentReminder_correct emptyGraph "A404" false).1 (by decide),
   (setAppointmentReminder_correct populatedFull "A001" false).2.1
     a001ReminderNode (by decide) (by decide)⟩

/-- C7: upserting an existing entity while supplying only some attributes
(the MERGE + SET pattern shared by the create functions, with an arbitrary
SET list) keeps the entity's identity and label, leaves every field not
mentioned in the call unchanged, and overwrites exactly the supplied
attributes. -/
theorem upsertEntity_partial_attributes (g : Graph) (label key : String) (v : PropValue)
    (sets : List (String × PropValue))
    (hnd : (sets.map Prod.fst).Nodup) (n : Node) (hn : n ∈ g.nodes)
    (hm : nodeMatches n label key v = true) :
    ∃ n' ∈ (mergeNodeSet g label key v sets).nodes,
      n'.nodeId = n.nodeId ∧ n'.label = n.label ∧
      (∀ k, k ∉ sets.map Prod.fst → getProp n'.props k = getProp n.props k) ∧
      (∀ k w, (k, w) ∈ sets → getProp n'.props k = some w) := by
  have hany : g.nodes.any (fun x => nodeMatches x label key v) = true :=
    List.any_eq_true.mpr ⟨n, hn, hm⟩
  rw [mergeNodeSet, if_pos hany]
  refine ⟨updNode label key v sets n, List.mem_map_of_mem _ hn, ?_, ?_, ?_, ?_⟩
  · rw [updNode, if_pos hm]
  · rw [updNode, if_pos hm]
  · intro k hk2
    rw [updNode, if_pos hm]
    exact getProp_setProps_not_mem _ _ _ hk2
  · intro k w hkw
    rw [updNode, if_pos hm]
    exact getProp_setProps_mem _ _ _ _ hnd hkw

/-- Witness for C7: upserting P001 with only a new name keeps age and
contact and overwrites the name. -/
theorem upsertEntity_partial_attributes_witness :
    ∃ n' ∈ (mergeNodeSet populatedCore "Patient" "patient_id" (PropValue.str "P001")
        [("name", PropValue.str "Alicia")]).nodes,
      n'.nodeId = p001Node.nodeId ∧ n'.label = p001Node.label ∧
      (∀ k, k ∉ ["name"] → getProp n'.props k = getProp p001Node.props k) ∧
      (∀ k w, (k, w) ∈ [("name", PropValue.str "Alicia")] → getProp n'.props k = some w) :=
  upsertEntity_partial_attributes populatedCore "Patient" "patient_id" (.str "P001")
    [("name", .str "Alicia")] (by decide) p001Node (by decide) (by decide)

/-- C8: along the executed flow no node or edge is ever removed — node
identities and edges only grow from each state to the next — and the final
reminder update differs from the populated state only by the reminder_sent
property added to the A001 appointment node. -/
theorem flow_monotone_no_deletion :
    (∀ p ∈ flowStates.zip flowStates.tail,
      p.1.nodes.map Node.nodeId ⊆ p.2.nodes.map Node.nodeId ∧ p.1.edges ⊆ p.2.edges) ∧
    flowStates.getLast? = some afterReminder ∧
    afterReminder.edges = populatedFull.edges ∧
    afterReminder.nextId = populatedFull.nextId ∧
    (∀ n' ∈ afterReminder.nodes, ∃ n ∈ populatedFull.nodes,
      n'.nodeId = n.nodeId ∧ n'.label = n.label ∧
      (n'.props = n.props
        ∨ n'.props = n.props ++ [("reminder_sent", PropValue.bool false)])) :=
  ⟨by decide, by decide, rfl, rfl, by decide⟩

/-- C9: Revenue_Gap is Payment_Per_Patient minus Cost_Per_Patient, and at
Cost 12000 / Payment 13500 it is 1500. -/
theorem revenueGap_correct :
    (∀ r : HospitalRecord, Revenue_Gap r = r.Payment_Per_Patient - r.Cost_Per_Patient) ∧
    Revenue_Gap { Hospital_ID := 1, State := "CA", Cost_Per_Patient := 12000,
                  Payment_Per_Patient := 13500 } = 1500 :=
  ⟨fun _ => rfl, rfl⟩

/-- C10: every returned row of get_patient_appointments comes from a chain
with both hops — the appointment must have an outgoing WITH_DOCTOR edge —
so with a doctor-less A003 linked to P001 the result for P001 is still only
the A001 row. -/
theorem doctorlessAppointments_omitted (g : Graph) (pid : String) (r : AppointmentRow) :
    (get_patient_appointments doctorlessGraph "P001"
      = [{ appointment_id := some (.str "A001"), date := some (.str "2023-10-15"),
           time := some (.str "10:00"), doctor := some (.str "Dr. Emily Brown") }]) ∧
    (r ∈ get_patient_appointments g pid →
      ∃ p ∈ g.nodes, nodeMatches p "Patient" "patient_id" (.str pid) = true ∧
      ∃ a ∈ edgesFrom g "HAS_APPOINTMENT" p.nodeId,
        edgesFrom g "WITH_DOCTOR" a.nodeId ≠ [] ∧
        r.appointment_id = getProp a.props "appointment_id") := by
  refine ⟨by decide, ?_⟩
  intro hr
  obtain ⟨p, hp, hmp, a, ha, d, hd, rfl⟩ := (mem_get_patient_appointments g pid r).mp hr
  exact ⟨p, hp, hmp, a, ha, List.ne_nil_of_mem hd, rfl⟩

/-- Witness for C10: the A001 row of the doctor-less graph indeed comes from
an appointment with a WITH_DOCTOR edge. -/
theorem doctorlessAppointments_omitted_witness :
    ∃ p ∈ doctorlessGraph.nodes,
      nodeMatches p "Patient" "patient_id" (PropValue.str "P001") = true ∧
      ∃ a ∈ edgesFrom doctorlessGraph "HAS_APPOINTMENT" p.nodeId,
        edgesFrom doctorlessGraph "WITH_DOCTOR" a.nodeId ≠ [] ∧
        ({ appointment_id := some (PropValue.str "A001"),
           date := some (PropValue.str "2023-10-15"),
           time := some (PropValue.str "10:00"),
           doctor := some (PropValue.str "Dr. Emily Brown") } : AppointmentRow).appointment_id
          = getProp a.props "appointment_id" :=
  (doctorlessAppointments_omitted doctorlessGraph "P001"
    { appointment_id := some (PropValue.str "A001"),
      date := some (PropValue.str "2023-10-15"),
      time := some (PropValue.str "10:00"),
      doctor := some (PropValue.str "Dr. Emily Brown") }).2 (by decide)

end HospitalCRM
